import Mathlib

/-!
Shallow embedding of the send-to-computer websocket server
(src/unnamed/part_015, a Node.js + ws + nedb implementation) and of the
resilient client socket (src/unnamed/part_004).

Modelling conventions:
- a live websocket connection (an element of messagesWss.clients) is a
  `Conn`: its id, its optional `username` property (set by the
  username handler; absent = JS undefined = `none`), and whether its
  readyState is OPEN;
- the three nedb datastores are lists kept in insertion order; nedb
  document ids are modelled by a fresh-id counter `nextId`;
- JS `undefined` string fields are `Option String`; JS truthiness of
  `el.username` is `truthyStr` (undefined and the empty string are falsy);
- `Date.now()` is modelled by the clock field `now` of the state;
- a handler returns the new server state plus the ordered list of
  (connection id, event) pairs it sends.
-/

/-- A live websocket connection: an element of `messagesWss.clients`.
`username` is the `conn.username` expando property (absent until a
successful username claim); `isOpen` models `readyState === WebSocket.OPEN`. -/
structure Conn where
  id : Nat
  username : Option String
  isOpen : Bool
deriving DecidableEq, Repr

/-- A row of the `users` datastore: `{ _id, username }`.  `username` is
optional because `getUserIdOrCreate` can insert `{ username: undefined }`
when called with an anonymous connection's username. -/
structure UserRec where
  _id : Nat
  username : Option String
deriving DecidableEq, Repr

/-- A row of the `groups` datastore: `{ _id, name, members }` with
`members` a list of user ids. -/
structure GroupRec where
  _id : Nat
  name : String
  members : List Nat
deriving DecidableEq, Repr

/-- A row of the `messages` datastore:
`{ _id, sender, receivingUser?, receivingGroup?, message, createdAt }`. -/
structure MessageRec where
  _id : Nat
  sender : Nat
  receivingUser : Option Nat
  receivingGroup : Option Nat
  message : String
  createdAt : Nat
deriving DecidableEq, Repr

/-- The whole server state: the set of live connections
(`messagesWss.clients`, in insertion order) and the three nedb stores,
plus a fresh-id counter for nedb inserts and the current clock. -/
structure ServerState where
  clients : List Conn
  users : List UserRec
  groups : List GroupRec
  messages : List MessageRec
  nextId : Nat
  now : Nat
deriving DecidableEq, Repr

/-- JS truthiness of a string-or-undefined value: `undefined` and `""`
are falsy. -/
def truthyStr : Option String → Bool
  | none => false
  | some s => s ≠ ""

/-- The payload of a `receive-message` event and of the entries of the
`logged-in` history (after `resolveMessageUserIds`): the message row with
`sender`/`receivingUser` replaced by usernames. -/
structure WireMessage where
  _id : Nat
  sender : Option String
  receivingUser : Option String
  receivingGroup : Option Nat
  message : String
  createdAt : Nat
deriving DecidableEq, Repr

/-- The payload of an `update-group` event: the (possibly absent, when the
update matched no document) group row with `members` replaced by the
username list taken from the request. -/
structure WireGroup where
  _id : Option Nat
  name : Option String
  members : List String
deriving DecidableEq, Repr

/-- A group row after `resolveGroupUserIds`: member ids replaced by
usernames (a member id that resolves to no user yields `undefined`). -/
structure ResolvedGroup where
  _id : Nat
  name : String
  members : List (Option String)
deriving DecidableEq, Repr

/-- An entry of the `users` list of the `logged-in` event: a user row (or a
pushed `{ online: true, username }` object, which has no `_id`) with the
derived `online` flag. -/
structure Contact where
  _id : Option Nat
  username : Option String
  online : Bool
deriving DecidableEq, Repr

/-- The client→server messages handled by the server's switch.
`editMessage` and `editTags` appear in the client protocol but have no
case in the server's switch (they fall through with no effect). -/
inductive ClientMsg where
  | username (username : String)
  | sendMessage (receipient : String) (message : String)
  | sendGroupMessage (id : Nat) (message : String)
  | editMessage (id : Nat) (newMessage : String)
  | editTags (id : Nat) (newTags : List String)
  | deleteMessage (id : Nat)
  | createGroup (name : String) (members : List String)
  | editGroup (id : Nat) (name : String) (oldMembers : List String) (newMembers : List String)
  | deleteGroup (id : Nat)
deriving DecidableEq, Repr

/-- The server→client events of part_015. -/
inductive ServerMsg where
  | newUser (username : String)
  | loggedIn (history : List WireMessage) (groups : List ResolvedGroup)
      (username : String) (users : List Contact)
  | invalidUsername
  | receiveMessage (message : WireMessage)
  | removeMessage (id : Nat)
  | updateGroup (group : WireGroup)
  | removedFromGroup (id : Nat)
  | userDisconnect (username : Option String)
deriving DecidableEq, Repr

/-- `isUsernameUnique(name)`: no element of `messagesWss.clients` has
`el.username === name`. -/
def isUsernameUnique (s : ServerState) (name : String) : Bool :=
  !(s.clients.any fun el => el.username == some name)

/-- `isValidUsername`: the name has no character outside the regex class
`[\w ]` (ASCII letters, digits, underscore, space). -/
def isValidUsername (username : String) : Bool :=
  username.data.all fun c => c.isAlphanum || c == '_' || c == ' '

/-- `getLoggedInUsers()`: the clients with a truthy `username` whose
readyState is OPEN. -/
def getLoggedInUsers (s : ServerState) : List Conn :=
  s.clients.filter fun el => truthyStr el.username && el.isOpen

/-- `sendToCertainUsers(users, message)`: send `message` to every
logged-in client whose username is in `users` (the `users` array may hold
strings and `undefined` entries, hence `List (Option String)`; a client's
string username never equals an `undefined` entry). -/
def sendToCertainUsers (s : ServerState) (users : List (Option String))
    (msg : ServerMsg) : List (Nat × ServerMsg) :=
  ((getLoggedInUsers s).filter fun el => users.contains el.username).map
    fun el => (el.id, msg)

/-- `findRemoved(oldArray, newArray)`: the elements of the old array not
in the new one. -/
def findRemoved (oldArray newArray : List String) : List String :=
  oldArray.filter fun x => !(newArray.contains x)

/-- `getUserIdOrCreate(username)`: find the first user row with this
username, or insert a new row; return its id (plus the updated store). -/
def getUserIdOrCreate (s : ServerState) (username : Option String) :
    Nat × ServerState :=
  match s.users.find? (fun u => u.username == username) with
  | some u => (u._id, s)
  | none =>
      (s.nextId,
       { s with users := s.users ++ [⟨s.nextId, username⟩],
                nextId := s.nextId + 1 })

/-- `getUsernameFromId(userId)`: `user?.username` of the first user row
with this id. -/
def getUsernameFromId (s : ServerState) (userId : Nat) : Option String :=
  (s.users.find? (fun u => u._id == userId)).bind (fun u => u.username)

/-- `resolveMessageUserIds(allUsers, message)`: replace the sender and
receivingUser ids by usernames.  (The source throws a TypeError when the
sender or the present receivingUser id resolves to no user row; that
lookup failure is modelled as `none`.) -/
def resolveMessageUserIds (allUsers : List UserRec) (m : MessageRec) :
    WireMessage :=
  { _id := m._id
    sender := (allUsers.find? (fun u => u._id == m.sender)).bind (fun u => u.username)
    receivingUser :=
      match m.receivingUser with
      | some rid => (allUsers.find? (fun u => u._id == rid)).bind (fun u => u.username)
      | none => none
    receivingGroup := m.receivingGroup
    message := m.message
    createdAt := m.createdAt }

/-- `resolveGroupUserIds(allUsers, group)`: replace member ids by
usernames (`find(...)?.username`). -/
def resolveGroupUserIds (allUsers : List UserRec) (g : GroupRec) :
    ResolvedGroup :=
  { _id := g._id
    name := g.name
    members := g.members.map fun i =>
      (allUsers.find? (fun u => u._id == i)).bind (fun u => u.username) }

/-- One step of the `existingUsers.forEach` contact bookkeeping in the
username handler: mark the first contact with the client's username as
online, or push a new `{ online: true, username }` contact at the end. -/
def markOnline (clientName : Option String) : List Contact → List Contact
  | [] => [⟨none, clientName, true⟩]
  | ct :: rest =>
      if clientName == ct.username then ⟨ct._id, ct.username, true⟩ :: rest
      else ct :: markOnline clientName rest

/-- Stable insertion of a message into a createdAt-sorted list. -/
def insertByCreatedAt (m : MessageRec) : List MessageRec → List MessageRec
  | [] => [m]
  | x :: xs =>
      if m.createdAt ≤ x.createdAt then m :: x :: xs
      else x :: insertByCreatedAt m xs

/-- The nedb `.sort({ createdAt: 1 })` on a query result: a stable sort by
creation time. -/
def sortByCreatedAt : List MessageRec → List MessageRec
  | [] => []
  | x :: xs => insertByCreatedAt x (sortByCreatedAt xs)

/-- Set the `username` expando property of connection `cid`
(`conn.username = parsedMsg.username`). -/
def setUsername (s : ServerState) (cid : Nat) (uname : String) : ServerState :=
  { s with clients := s.clients.map fun c =>
      if c.id == cid then { c with username := some uname } else c }

/-- nedb `insertAsync` into `messages`: assign a fresh id and append. -/
def insertMessage (s : ServerState) (sender : Nat) (receivingUser : Option Nat)
    (receivingGroup : Option Nat) (text : String) : MessageRec × ServerState :=
  let m : MessageRec := ⟨s.nextId, sender, receivingUser, receivingGroup, text, s.now⟩
  (m, { s with messages := s.messages ++ [m], nextId := s.nextId + 1 })

/-- nedb `insertAsync` into `groups`: assign a fresh id and append. -/
def insertGroup (s : ServerState) (name : String) (members : List Nat) :
    GroupRec × ServerState :=
  let g : GroupRec := ⟨s.nextId, name, members⟩
  (g, { s with groups := s.groups ++ [g], nextId := s.nextId + 1 })

/-- Remove the first list element satisfying the predicate (nedb
`removeAsync` with `multi` unset, i.e. false, removes at most one
document). -/
def removeFirst {α : Type} (p : α → Bool) : List α → List α
  | [] => []
  | x :: xs => if p x then xs else x :: removeFirst p xs

/-- nedb `updateAsync({}, { $set: { members, name } }, { returnUpdatedDocs: true })`
on `groups`: the empty query matches every document and `multi` is unset, so
only the first group row is updated; returns the updated document. -/
def updateFirstGroup (s : ServerState) (members : List Nat) (name : String) :
    Option GroupRec × ServerState :=
  match s.groups with
  | [] => (none, s)
  | g :: rest =>
      let g2 : GroupRec := { g with members := members, name := name }
      (some g2, { s with groups := g2 :: rest })

/-- Left-to-right resolution of a username list via `getUserIdOrCreate`
(the source runs `Promise.all(list.map(getUserIdOrCreate))`; modelled
sequentially). -/
def resolveMembers (s : ServerState) (names : List String) :
    List Nat × ServerState :=
  match names with
  | [] => ([], s)
  | n :: rest =>
      let p := getUserIdOrCreate s (some n)
      let q := resolveMembers p.2 rest
      (p.1 :: q.1, q.2)

/-- Map a list of member ids to usernames
(`Promise.all(members.map(getUsernameFromId))`). -/
def memberUsernames (s : ServerState) (members : List Nat) :
    List (Option String) :=
  members.map (getUsernameFromId s)

/-- The `case "username"` branch of the message handler.  On a unique and
valid name: capture the logged-in clients, set `conn.username`, read the
stores, notify every previously-logged-in client with `new-user`
(mirroring the `existingUsers.forEach` loop, whose contact bookkeeping is
`markOnline`), and reply `logged-in` to the requester; otherwise reply
`invalid-username` and change nothing. -/
def handleUsername (s : ServerState) (conn : Conn) (uname : String) :
    ServerState × List (Nat × ServerMsg) :=
  if isUsernameUnique s uname && isValidUsername uname then
    let existingUsers := getLoggedInUsers s
    let s1 := setUsername s conn.id uname
    let users := s1.users
    let user := users.find? fun u => u.username == some uname
    let groupsHistory : List GroupRec × List MessageRec :=
      match user with
      | some u =>
          let gs := s1.groups.filter fun g => g.members.contains u._id
          let hist := sortByCreatedAt (s1.messages.filter fun m =>
            m.sender == u._id || m.receivingUser == some u._id ||
              (match m.receivingGroup with
               | some gid => (gs.map fun g => g._id).contains gid
               | none => false))
          (gs, hist)
      | none => ([], [])
    let contacts0 := users.map fun u => (⟨some u._id, u.username, false⟩ : Contact)
    let contacts := existingUsers.foldl
      (fun cs client => markOnline client.username cs) contacts0
    let sends := existingUsers.map fun client => (client.id, ServerMsg.newUser uname)
    (s1, sends ++ [(conn.id,
        ServerMsg.loggedIn (groupsHistory.2.map (resolveMessageUserIds users))
          (groupsHistory.1.map (resolveGroupUserIds users)) uname
          (contacts.filter fun ct => !(ct.username == some uname)))])
  else (s, [(conn.id, ServerMsg.invalidUsername)])

/-- The `case "send-message"` branch: get-or-create the sender and the
recipient, insert the message row, and send `receive-message` to the
recipient and the sender (by username). -/
def handleSendMessage (s : ServerState) (conn : Conn) (receipient text : String) :
    ServerState × List (Nat × ServerMsg) :=
  let p1 := getUserIdOrCreate s conn.username
  let p2 := getUserIdOrCreate p1.2 (some receipient)
  let p3 := insertMessage p2.2 p1.1 (some p2.1) none text
  (p3.2, sendToCertainUsers p3.2 [some receipient, conn.username]
    (ServerMsg.receiveMessage
      ⟨p3.1._id, conn.username, some receipient, none, p3.1.message, p3.1.createdAt⟩))

/-- The `case "send-group-message"` branch: get-or-create the sender,
insert the message row, look up the group, and send `receive-message` to
the usernames of its members.  (When the group id resolves to no row the
source throws on destructuring null: the already-inserted message row
persists and nothing is sent.) -/
def handleSendGroupMessage (s : ServerState) (conn : Conn) (gid : Nat)
    (text : String) : ServerState × List (Nat × ServerMsg) :=
  let p1 := getUserIdOrCreate s conn.username
  let p2 := insertMessage p1.2 p1.1 none (some gid) text
  match p2.2.groups.find? (fun g => g._id == gid) with
  | none => (p2.2, [])
  | some g =>
      (p2.2, sendToCertainUsers p2.2 (memberUsernames p2.2 g.members)
        (ServerMsg.receiveMessage
          ⟨p2.1._id, conn.username, none, some gid, p2.1.message, p2.1.createdAt⟩))

/-- Tail of the `case "delete-message"` branch, after the affected
usernames (sender, receiving user if any, group members if any) have been
collected: if the requester's username is not among them, return silently
(no error event, no mutation); otherwise remove the row and send
`remove-message` to the affected usernames. -/
def deleteMessageFinish (s : ServerState) (conn : Conn) (mid : Nat)
    (affected : List (Option String)) : ServerState × List (Nat × ServerMsg) :=
  if !(affected.contains conn.username) then (s, [])
  else
    let s1 := { s with messages := removeFirst (fun m => m._id == mid) s.messages }
    (s1, sendToCertainUsers s1 affected (ServerMsg.removeMessage mid))

/-- The `affectedUsernames` list of the `case "delete-message"` branch:
the sender's username, then the receiving user's username if any, then
the receiving group's member usernames if any.  `none` (no list at all)
when the receivingGroup id resolves to no group row — there the source
throws on destructuring null before any mutation. -/
def collectAffected (s : ServerState) (m : MessageRec) :
    Option (List (Option String)) :=
  let base := [getUsernameFromId s m.sender] ++
    (match m.receivingUser with
     | some rid => [getUsernameFromId s rid]
     | none => [])
  match m.receivingGroup with
  | some gid =>
      match s.groups.find? (fun g => g._id == gid) with
      | none => none
      | some g => some (base ++ memberUsernames s g.members)
  | none => some base

/-- The `case "delete-message"` branch.  (When the message id — or the
receivingGroup id of a found message — resolves to no row, the source
throws on destructuring null before any mutation: no state change, no
sends.) -/
def handleDeleteMessage (s : ServerState) (conn : Conn) (mid : Nat) :
    ServerState × List (Nat × ServerMsg) :=
  match s.messages.find? (fun m => m._id == mid) with
  | none => (s, [])
  | some m =>
      match collectAffected s m with
      | none => (s, [])
      | some affected => deleteMessageFinish s conn mid affected

/-- The `case "create-group"` branch: convert the member usernames to
user ids with `getUserIdOrCreate`, insert the group row, and send
`update-group` to the member usernames. -/
def handleCreateGroup (s : ServerState) (_conn : Conn) (gname : String)
    (memberNames : List String) : ServerState × List (Nat × ServerMsg) :=
  let p1 := resolveMembers s memberNames
  let p2 := insertGroup p1.2 gname p1.1
  (p2.2, sendToCertainUsers p2.2 (memberNames.map some)
    (ServerMsg.updateGroup ⟨some p2.1._id, some p2.1.name, memberNames⟩))

/-- The `case "delete-group"` branch: notify the member usernames with
`removed-from-group`, remove the group row, then remove messages of the
group — but the remove options are `{ _multi: true }` and nedb reads
`options.multi`, which is absent and defaults to false, so only the first
matching message row is removed. -/
def handleDeleteGroup (s : ServerState) (_conn : Conn) (gid : Nat) :
    ServerState × List (Nat × ServerMsg) :=
  match s.groups.find? (fun g => g._id == gid) with
  | none => (s, [])
  | some g =>
      let out := sendToCertainUsers s (memberUsernames s g.members)
        (ServerMsg.removedFromGroup gid)
      let s1 := { s with groups := removeFirst (fun g2 => g2._id == gid) s.groups }
      let s2 := { s1 with
        messages := removeFirst (fun m => m.receivingGroup == some gid) s1.messages }
      (s2, out)

/-- The `case "edit-group"` branch: convert the new member usernames to
ids, run the update — whose query is `{}`, so the first group row in the
store is updated, not the row with the requested id — and send
`update-group` to the new members and `removed-from-group` to the members
present in `oldMembers` but not in `newMembers`. -/
def handleEditGroup (s : ServerState) (_conn : Conn) (gid : Nat) (gname : String)
    (oldMembers newMembers : List String) : ServerState × List (Nat × ServerMsg) :=
  let p1 := resolveMembers s newMembers
  let p2 := updateFirstGroup p1.2 p1.1 gname
  let removedUsers := findRemoved oldMembers newMembers
  let wire : WireGroup :=
    match p2.1 with
    | some g => ⟨some g._id, some g.name, newMembers⟩
    | none => ⟨none, none, newMembers⟩
  (p2.2, sendToCertainUsers p2.2 (newMembers.map some) (ServerMsg.updateGroup wire)
       ++ sendToCertainUsers p2.2 (removedUsers.map some) (ServerMsg.removedFromGroup gid))

/-- The `conn.on("message")` dispatcher: find the connection and run the
switch.  `editMessage` and `editTags` have no case in the switch and fall
through with no effect and no reply. -/
def handleMessage (s : ServerState) (cid : Nat) (msg : ClientMsg) :
    ServerState × List (Nat × ServerMsg) :=
  match s.clients.find? (fun c => c.id == cid) with
  | none => (s, [])
  | some conn =>
      match msg with
      | .username uname => handleUsername s conn uname
      | .sendMessage receipient text => handleSendMessage s conn receipient text
      | .sendGroupMessage gid text => handleSendGroupMessage s conn gid text
      | .editMessage _ _ => (s, [])
      | .editTags _ _ => (s, [])
      | .deleteMessage mid => handleDeleteMessage s conn mid
      | .createGroup gname members => handleCreateGroup s conn gname members
      | .editGroup gid gname oldM newM => handleEditGroup s conn gid gname oldM newM
      | .deleteGroup gid => handleDeleteGroup s conn gid

/-- The `conn.on("close")` handler.  The ws server removes the socket from
`messagesWss.clients` before user close listeners run (its own removal
listener is registered first), so the broadcast of `user-disconnect` goes
to the logged-in clients of the state with the closing connection already
removed. -/
def handleClose (s : ServerState) (cid : Nat) :
    ServerState × List (Nat × ServerMsg) :=
  match s.clients.find? (fun c => c.id == cid) with
  | none => (s, [])
  | some conn =>
      let s1 := { s with clients := s.clients.filter fun c => !(c.id == cid) }
      (s1, (getLoggedInUsers s1).map fun client =>
        (client.id, ServerMsg.userDisconnect conn.username))

/-- A new websocket connection: added to `messagesWss.clients` with no
`username` property and an OPEN transport. -/
def newConnection (s : ServerState) (cid : Nat) : ServerState :=
  { s with clients := s.clients ++ [⟨cid, none, true⟩] }

/-- The base reconnect delay of the resilient client socket
(`connectionRetry` starts at 2 seconds). -/
def baseRetry : Nat := 2

/-- The state of the resilient client socket (src/unnamed/part_004) that
the reconnect logic reads: the current `connectionRetry` delay in seconds
and whether the current socket's readyState is OPEN. -/
structure SocketState where
  connectionRetry : Nat
  isOpen : Bool
deriving DecidableEq, Repr

/-- The observable transitions of the reconnect logic: a transport close
(which schedules the reconnect timer), the timer firing, and a successful
open. -/
inductive SocketEvent where
  | closeEvt
  | timerFire
  | openEvt
deriving DecidableEq, Repr

/-- One step of the reconnect logic of `initSocket`.  On close, the
handler schedules a reconnect after the *current* `connectionRetry`
seconds (the emitted observation).  When the timer fires and the socket
is not OPEN, `connectionRetry` is doubled and a new connection attempt
starts.  On open, `connectionRetry` is reset to 2. -/
def socketStep (st : SocketState) : SocketEvent → SocketState × List Nat
  | .closeEvt => ({ st with isOpen := false }, [st.connectionRetry])
  | .timerFire =>
      if st.isOpen then (st, [])
      else ({ st with connectionRetry := st.connectionRetry * 2 }, [])
  | .openEvt => ({ st with connectionRetry := baseRetry, isOpen := true }, [])

/-- Run the reconnect logic over a list of events, collecting the
scheduled reconnect delays in order. -/
def socketRun (st : SocketState) : List SocketEvent → SocketState × List Nat
  | [] => (st, [])
  | e :: es =>
      let p := socketStep st e
      let q := socketRun p.1 es
      (q.1, p.2 ++ q.2)

/-- The control point of one in-flight `getUserIdOrCreate(name)` call,
split at its await points: not yet started; after the `findOneAsync`
(remembering the found id, if any); finished with the returned id. -/
inductive GocTaskState where
  | start
  | afterFind (found : Option Nat)
  | done (id : Nat)
deriving DecidableEq, Repr

/-- One step of an in-flight `getUserIdOrCreate(uname)` call against the
users store: first the find, then — only when the find came back empty —
the insert. -/
def gocTaskStep (users : List UserRec) (nextId : Nat) (uname : Option String) :
    GocTaskState → GocTaskState × List UserRec × Nat
  | .start =>
      (.afterFind ((users.find? (fun u => u.username == uname)).map (fun u => u._id)),
       users, nextId)
  | .afterFind (some i) => (.done i, users, nextId)
  | .afterFind none => (.done nextId, users ++ [⟨nextId, uname⟩], nextId + 1)
  | .done i => (.done i, users, nextId)

/-- Two concurrent `getUserIdOrCreate(uname)` calls sharing one users
store. -/
structure GocWorld where
  users : List UserRec
  nextId : Nat
  task1 : GocTaskState
  task2 : GocTaskState
deriving DecidableEq, Repr

/-- Advance one of the two in-flight calls (`true` steps the first). -/
def gocWorldStep (uname : Option String) (w : GocWorld) (which : Bool) : GocWorld :=
  if which then
    let r := gocTaskStep w.users w.nextId uname w.task1
    { w with task1 := r.1, users := r.2.1, nextId := r.2.2 }
  else
    let r := gocTaskStep w.users w.nextId uname w.task2
    { w with task2 := r.1, users := r.2.1, nextId := r.2.2 }

/-- Run the two concurrent calls under an interleaving schedule. -/
def gocRun (uname : Option String) (w : GocWorld) : List Bool → GocWorld
  | [] => w
  | b :: bs => gocRun uname (gocWorldStep uname w b) bs

/-- True when connection id `t` belongs to a currently logged-in client
(bound truthy username, OPEN transport): the only audience the broadcast
helpers can reach. -/
def isLoggedInId (s : ServerState) (t : Nat) : Bool :=
  (getLoggedInUsers s).any fun c => c.id == t

/-- Example state: user a logged in on connection 1; connection 2 is
connected but has never claimed a username. -/
def stConflict : ServerState :=
  ⟨[⟨1, some "a", true⟩, ⟨2, none, true⟩], [⟨10, some "a"⟩], [], [], 30, 0⟩

/-- Example state: two live connections both carrying username a (not
reachable through the handlers, which enforce uniqueness, but exercising
the close handler on it shows it never checks for remaining
connections). -/
def stTwoSame : ServerState :=
  ⟨[⟨1, some "a", true⟩, ⟨2, some "a", true⟩], [⟨10, some "a"⟩], [], [], 30, 0⟩

/-- Example state: users a (id 10, connection 1) and b (id 11, connection
2) both logged in; group G (id 20) whose only member is b. -/
def stGroupMsg : ServerState :=
  ⟨[⟨1, some "a", true⟩, ⟨2, some "b", true⟩],
   [⟨10, some "a"⟩, ⟨11, some "b"⟩], [⟨20, "G", [11]⟩], [], 30, 5⟩

/-- Example state: users a, b, c logged in on connections 1, 2, 3; one
message (id 100) sent by a to b. -/
def stDelete : ServerState :=
  ⟨[⟨1, some "a", true⟩, ⟨2, some "b", true⟩, ⟨3, some "c", true⟩],
   [⟨10, some "a"⟩, ⟨11, some "b"⟩, ⟨12, some "c"⟩], [],
   [⟨100, 10, some 11, none, "hi", 0⟩], 200, 0⟩

/-- Example state: user a logged in; group 20 with member a; two messages
(ids 100 and 101) addressed to group 20. -/
def stTwoMsgs : ServerState :=
  ⟨[⟨1, some "a", true⟩], [⟨10, some "a"⟩], [⟨20, "G", [10]⟩],
   [⟨100, 10, none, some 20, "x", 0⟩, ⟨101, 10, none, some 20, "y", 1⟩], 200, 0⟩

/-- Example state: user a logged in; two groups G1 (id 20) and G2
(id 21). -/
def stTwoGroups : ServerState :=
  ⟨[⟨1, some "a", true⟩], [⟨10, some "a"⟩],
   [⟨20, "G1", [10]⟩, ⟨21, "G2", [10]⟩], [], 200, 0⟩

/-- Example state: user a logged in on connection 1; the users store
knows only a. -/
def stGhost : ServerState :=
  ⟨[⟨1, some "a", true⟩], [⟨10, some "a"⟩], [], [], 200, 0⟩

/-- Example state: users a and b logged in on connections 1 and 2. -/
def stPair : ServerState :=
  ⟨[⟨1, some "a", true⟩, ⟨2, some "b", true⟩],
   [⟨10, some "a"⟩, ⟨11, some "b"⟩], [], [], 30, 0⟩

/-! ## Supporting lemmas -/

/-- A connection found by id in the registry has that id. -/
theorem find_clients_id {s : ServerState} {cid : Nat} {conn : Conn}
    (h : s.clients.find? (fun c => c.id == cid) = some conn) : conn.id = cid := by
  have h2 := List.find?_some h
  simpa using h2

/-- getUserIdOrCreate touches only the users store and the id counter. -/
theorem goc_frame (s : ServerState) (un : Option String) :
    ((getUserIdOrCreate s un).2).clients = s.clients ∧
    ((getUserIdOrCreate s un).2).groups = s.groups ∧
    ((getUserIdOrCreate s un).2).messages = s.messages := by
  unfold getUserIdOrCreate
  split <;> exact ⟨rfl, rfl, rfl⟩

/-- resolveMembers touches only the users store and the id counter. -/
theorem resolveMembers_frame (names : List String) (s : ServerState) :
    ((resolveMembers s names).2).clients = s.clients ∧
    ((resolveMembers s names).2).groups = s.groups ∧
    ((resolveMembers s names).2).messages = s.messages := by
  induction names generalizing s with
  | nil => exact ⟨rfl, rfl, rfl⟩
  | cons n rest ih =>
      have h1 := goc_frame s (some n)
      have h2 := ih (getUserIdOrCreate s (some n)).2
      simp only [resolveMembers]
      exact ⟨h2.1.trans h1.1, h2.2.1.trans h1.2.1, h2.2.2.trans h1.2.2⟩

/-- An event produced by sendToCertainUsers is addressed to a logged-in
connection. -/
theorem sendToCertainUsers_loggedIn {s : ServerState}
    {users : List (Option String)} {msg : ServerMsg} {t : Nat} {e : ServerMsg}
    (h : (t, e) ∈ sendToCertainUsers s users msg) : isLoggedInId s t = true := by
  simp only [sendToCertainUsers, List.mem_map, List.mem_filter] at h
  obtain ⟨el, ⟨hel, hus⟩, heq⟩ := h
  have hid : el.id = t := congrArg Prod.fst heq
  simp only [isLoggedInId, List.any_eq_true]
  exact ⟨el, hel, by simp [hid]⟩

/-- isLoggedInId only reads the connection registry. -/
theorem isLoggedInId_congr {s s2 : ServerState} (h : s2.clients = s.clients)
    (t : Nat) : isLoggedInId s2 t = isLoggedInId s t := by
  simp only [isLoggedInId, getLoggedInUsers, h]

/-- Counting occurrences of an id in a filtered registry with no duplicate
ids: one when the unique carrier of the id passes the filter, zero
otherwise. -/
theorem countP_filter_id {l : List Conn} {e : Conn} (A : Conn → Bool)
    (hn : (l.map (fun c => c.id)).Nodup) (he : e ∈ l) :
    (l.filter A).countP (fun c => c.id == e.id) = if A e then 1 else 0 := by
  induction l with
  | nil => cases he
  | cons x xs ih =>
      rw [List.map_cons, List.nodup_cons] at hn
      rcases List.mem_cons.mp he with rfl | hmem
      · have hz : (xs.filter A).countP (fun c => c.id == e.id) = 0 := by
          rw [List.countP_eq_zero]
          intro a ha
          have hax : a ∈ xs := (List.mem_filter.mp ha).1
          have : a.id ≠ e.id := by
            intro hcontra
            exact hn.1 (hcontra ▸ List.mem_map_of_mem (fun c => c.id) hax)
          simpa using this
        rw [List.filter_cons]
        by_cases hA : A e
        · simp only [hA, if_true, List.countP_cons, hz]
          simp
        · have hAe : A e = false := by simpa using hA
          simp [hAe, hz]
      · have hxe : (x.id == e.id) = false := by
          have : x.id ≠ e.id := by
            intro hcontra
            exact hn.1 (hcontra ▸ List.mem_map_of_mem (fun c => c.id) hmem)
          simpa using this
        rw [List.filter_cons]
        by_cases hA : A x
        · simp only [hA, if_true, List.countP_cons, hxe]
          simpa using ih hn.2 hmem
        · simp only [hA, if_false]
          exact ih hn.2 hmem

/-- Counting the events addressed to a given connection id in the output
of sendToCertainUsers, in a registry without duplicate ids: one when that
connection is logged in and its username is listed, zero otherwise. -/
theorem sendToCertainUsers_count {s : ServerState} {e : Conn}
    (users : List (Option String)) (msg : ServerMsg)
    (hn : (s.clients.map (fun c => c.id)).Nodup) (he : e ∈ s.clients) :
    (sendToCertainUsers s users msg).countP (fun p => p.1 == e.id) =
      if users.contains e.username && (truthyStr e.username && e.isOpen)
      then 1 else 0 := by
  unfold sendToCertainUsers getLoggedInUsers
  rw [List.countP_map, List.filter_filter]
  exact countP_filter_id
    (fun a => users.contains a.username && (truthyStr a.username && a.isOpen)) hn he

/-- getUserIdOrCreate leaves a user row with the requested username in
the store and returns its id. -/
theorem goc_user_exists (s : ServerState) (un : Option String) :
    ∃ u, u ∈ ((getUserIdOrCreate s un).2).users ∧ u.username = un ∧
      u._id = (getUserIdOrCreate s un).1 := by
  unfold getUserIdOrCreate
  cases h : s.users.find? (fun u => u.username == un) with
  | some u =>
      refine ⟨u, List.mem_of_find?_eq_some h, ?_, rfl⟩
      have h2 := List.find?_some h
      simpa using h2
  | none => exact ⟨⟨s.nextId, un⟩, by simp, rfl, rfl⟩

/-- getUserIdOrCreate never removes user rows. -/
theorem goc_users_mono {u : UserRec} (s : ServerState) (un : Option String)
    (h : u ∈ s.users) : u ∈ ((getUserIdOrCreate s un).2).users := by
  unfold getUserIdOrCreate
  split
  · exact h
  · simp [h]

/-- resolveMembers never removes user rows. -/
theorem resolveMembers_users_mono {u : UserRec} (names : List String)
    (s : ServerState) (h : u ∈ s.users) :
    u ∈ ((resolveMembers s names).2).users := by
  induction names generalizing s with
  | nil => exact h
  | cons n rest ih =>
      simp only [resolveMembers]
      exact ih _ (goc_users_mono s (some n) h)

/-- After resolveMembers, every requested member name has a user row. -/
theorem resolveMembers_resolves (names : List String) (s : ServerState) :
    ∀ n ∈ names, ∃ u, u ∈ ((resolveMembers s names).2).users ∧
      u.username = some n := by
  induction names generalizing s with
  | nil => intro n hn; cases hn
  | cons m rest ih =>
      intro n hn
      rcases List.mem_cons.mp hn with rfl | hmem
      · obtain ⟨u, hu, hun, _⟩ := goc_user_exists s (some n)
        exact ⟨u, by simpa only [resolveMembers] using
          resolveMembers_users_mono rest _ hu, hun⟩
      · simpa only [resolveMembers] using ih (getUserIdOrCreate s (some m)).2 n hmem

/-- A username claim that fails the uniqueness check changes nothing and
replies invalid-username to the requester only. -/
theorem handleUsername_conflict (s : ServerState) (conn : Conn) (name : String)
    (hu : isUsernameUnique s name = false) :
    handleUsername s conn name = (s, [(conn.id, ServerMsg.invalidUsername)]) := by
  unfold handleUsername
  rw [hu]
  simp

/-- A username claim that passes the uniqueness and validity checks binds
the name to the requesting connection, notifies every previously
logged-in client with new-user, and replies logged-in to the requester. -/
theorem handleUsername_success (s : ServerState) (conn : Conn) (name : String)
    (hu : isUsernameUnique s name = true) (hv : isValidUsername name = true) :
    ∃ hist gs contacts,
      handleUsername s conn name =
        (setUsername s conn.id name,
         ((getLoggedInUsers s).map fun client => (client.id, ServerMsg.newUser name)) ++
           [(conn.id, ServerMsg.loggedIn hist gs name contacts)]) := by
  unfold handleUsername
  rw [hu, hv]
  exact ⟨_, _, _, rfl⟩

/-- Running one in-flight getUserIdOrCreate task to completion, alone,
agrees with the server's getUserIdOrCreate on the returned id, the users
store and the id counter: the interleaving model embeds the code. -/
theorem gocTask_alone_agrees (users : List UserRec) (nid : Nat) (un : Option String) :
    (gocTaskStep (gocTaskStep users nid un .start).2.1
        (gocTaskStep users nid un .start).2.2 un
        (gocTaskStep users nid un .start).1).1 =
      GocTaskState.done (getUserIdOrCreate ⟨[], users, [], [], nid, 0⟩ un).1 ∧
    (gocTaskStep (gocTaskStep users nid un .start).2.1
        (gocTaskStep users nid un .start).2.2 un
        (gocTaskStep users nid un .start).1).2.1 =
      ((getUserIdOrCreate ⟨[], users, [], [], nid, 0⟩ un).2).users := by
  cases h : users.find? (fun u => u.username == un) with
  | some u => simp [gocTaskStep, getUserIdOrCreate, h]
  | none => simp [gocTaskStep, getUserIdOrCreate, h]

/-! ## Claim theorems -/

/-- C5: deleting group 20 — which has one connected member and two
messages addressed to it — notifies the member once and removes the group
row, but leaves the second message addressed to the group in the store:
the remove call passes the option `_multi` where nedb reads `multi`, so
only a single matching document is removed.  The claim (and the spec's
cascading delete) require no message addressed to the deleted group to
remain. -/
theorem claim_C5 :
    (handleMessage stTwoMsgs 1 (.deleteGroup 20)).1.groups = [] ∧
    (handleMessage stTwoMsgs 1 (.deleteGroup 20)).2 =
      [(1, ServerMsg.removedFromGroup 20)] ∧
    (handleMessage stTwoMsgs 1 (.deleteGroup 20)).1.messages =
      [⟨101, 10, none, some 20, "y", 1⟩] := ⟨rfl, rfl, rfl⟩

/-- C6: an edit-group request targeting group 21 replaces the name and
member set of group 20 — the first group row in the store — and leaves
group 21 unchanged: the update's query is `{}` rather than
`{ _id: parsedMsg.id }`. -/
theorem claim_C6 :
    (handleMessage stTwoGroups 1 (.editGroup 21 "NewName" [] ["a"])).1.groups =
      [⟨20, "NewName", [10]⟩, ⟨21, "G2", [10]⟩] := rfl

/-- C8: starting disconnected with the retry delay at the base value,
three consecutive failed reconnects are scheduled after base, 2×base and
4×base seconds (the close handler schedules with the current delay and
the doubling happens when the timer fires), and any successful open
resets the delay so that the next failure schedules after the base delay
again. -/
theorem claim_C8 :
    (socketRun ⟨baseRetry, false⟩
        [.closeEvt, .timerFire, .closeEvt, .timerFire, .closeEvt]).2 =
      [baseRetry, 2 * baseRetry, 4 * baseRetry] ∧
    ∀ st : SocketState,
      (socketStep st .openEvt).1.connectionRetry = baseRetry ∧
      (socketRun (socketStep st .openEvt).1 [.closeEvt]).2 = [baseRetry] :=
  ⟨rfl, fun _ => ⟨rfl, rfl⟩⟩

/-- C9: getUserIdOrCreate is a find-then-insert sequence, not an atomic
insert-or-fetch: interleaving two concurrent calls for the never-seen
name alice as find, find, insert, insert leaves two user rows with that
name, while any schedule that runs one call to completion first leaves
exactly one. -/
theorem claim_C9 :
    ((gocRun (some "alice") ⟨[], 0, .start, .start⟩ [true, false, true, false]).users.countP
        (fun u => u.username == some "alice")) = 2 ∧
    ((gocRun (some "alice") ⟨[], 0, .start, .start⟩ [true, true, false, false]).users.countP
        (fun u => u.username == some "alice")) = 1 := ⟨rfl, rfl⟩

/-- C2 counterexample: closing user a's only connection while an
anonymous connection 2 is connected emits no event at all — the claimed
single user-offline event addressed to all currently connected clients
does not reach connection 2 — and closing one of two connections carrying
the same username does emit a user-disconnect event, because the close
handler never checks whether the user has other live connections. -/
theorem claim_C2_cex :
    (handleClose stConflict 1).2 = [] ∧
    (handleClose stTwoSame 1).2 = [(2, ServerMsg.userDisconnect (some "a"))] :=
  ⟨rfl, rfl⟩

/-- C3 counterexample: the connected user a sends a message to group G
whose only member is b; the server delivers receive-message to b's
connection only — the sender, not being a member, receives nothing,
contradicting the claimed sender-plus-members audience. -/
theorem claim_C3_cex :
    (handleMessage stGroupMsg 1 (.sendGroupMessage 20 "hi")).2 =
      [(2, ServerMsg.receiveMessage ⟨30, some "a", none, some 20, "hi", 5⟩)] := rfl

/-- C4 counterexample: user b — the recipient, not the sender — deletes
message 100 sent by a: the store is mutated (the message disappears) and
remove-message is broadcast, contradicting the claimed authorization
rejection without state change; while user c, unrelated to the message,
has the request silently dropped with no error event at all. -/
theorem claim_C4_cex :
    ((handleMessage stDelete 2 (.deleteMessage 100)).1.messages = [] ∧
     (handleMessage stDelete 2 (.deleteMessage 100)).2 =
       [(1, ServerMsg.removeMessage 100), (2, ServerMsg.removeMessage 100)]) ∧
    handleMessage stDelete 3 (.deleteMessage 100) = (stDelete, []) :=
  ⟨⟨rfl, rfl⟩, rfl⟩

/-- C7 counterexample: create-group with the member name ghost, which
resolves to no existing user, is not rejected: a new user row for ghost
and the group row are both created. -/
theorem claim_C7_cex :
    (handleMessage stGhost 1 (.createGroup "g" ["ghost"])).1.users =
      [⟨10, some "a"⟩, ⟨200, some "ghost"⟩] ∧
    (handleMessage stGhost 1 (.createGroup "g" ["ghost"])).1.groups =
      [⟨201, "g", [200]⟩] := ⟨rfl, rfl⟩

/-- C1: claiming a name held by another live connection fails with the
conflict reply (invalid-username) and changes no server state; and after
the holding connection closes, a claim of the same (valid) name by a
connection that survives the close succeeds: the requester's connection
is bound to the name and it receives the logged-in snapshot, while every
previously logged-in client is notified with new-user. -/
theorem claim_C1 :
    (∀ (s : ServerState) (cid : Nat) (conn holder : Conn) (name : String),
      s.clients.find? (fun c => c.id == cid) = some conn →
      holder ∈ s.clients → holder.username = some name →
      handleMessage s cid (.username name) =
        (s, [(cid, ServerMsg.invalidUsername)])) ∧
    (∀ (s : ServerState) (holderId did : Nat) (d : Conn) (name : String),
      isValidUsername name = true →
      (∀ c ∈ s.clients, c.id ≠ holderId → c.username ≠ some name) →
      ((handleClose s holderId).1).clients.find? (fun c => c.id == did) = some d →
      ∃ hist gs contacts,
        handleMessage (handleClose s holderId).1 did (.username name) =
          (setUsername (handleClose s holderId).1 did name,
           ((getLoggedInUsers (handleClose s holderId).1).map
              fun client => (client.id, ServerMsg.newUser name)) ++
             [(did, ServerMsg.loggedIn hist gs name contacts)])) := by
  constructor
  · intro s cid conn holder name hfind hmem hname
    have hcid := find_clients_id hfind
    have huniq : isUsernameUnique s name = false := by
      simp only [isUsernameUnique, Bool.not_eq_false', List.any_eq_true]
      exact ⟨holder, hmem, by simp [hname]⟩
    unfold handleMessage
    rw [hfind]
    show handleUsername s conn name = (s, [(cid, ServerMsg.invalidUsername)])
    rw [handleUsername_conflict s conn name huniq, hcid]
  · intro s holderId did d name hv hothers hfind
    have hcid := find_clients_id hfind
    have hnone : ∀ c ∈ ((handleClose s holderId).1).clients,
        c.username ≠ some name := by
      intro c hc
      unfold handleClose at hc
      cases h : s.clients.find? (fun c2 => c2.id == holderId) with
      | some conn2 =>
          rw [h] at hc
          simp only [List.mem_filter] at hc
          exact hothers c hc.1 (by simpa using hc.2)
      | none =>
          rw [h] at hc
          have hnp := List.find?_eq_none.mp h c hc
          exact hothers c hc (by simpa using hnp)
    have huniq : isUsernameUnique ((handleClose s holderId).1) name = true := by
      simp only [isUsernameUnique, Bool.not_eq_true', List.any_eq_false]
      intro c hc
      simpa using hnone c hc
    obtain ⟨hist, gs, contacts, heq⟩ :=
      handleUsername_success ((handleClose s holderId).1) d name huniq hv
    refine ⟨hist, gs, contacts, ?_⟩
    unfold handleMessage
    rw [hfind]
    show handleUsername (handleClose s holderId).1 d name = _
    rw [heq, hcid]

/-- C1 witness: in the state with user a live on connection 1 and the
anonymous connection 2, connection 2's claim of a is rejected unchanged;
after connection 1 closes, connection 2's claim of a succeeds. -/
theorem claim_C1_witness :
    (handleMessage stConflict 2 (.username "a") =
      (stConflict, [(2, ServerMsg.invalidUsername)])) ∧
    ∃ hist gs contacts,
      handleMessage (handleClose stConflict 1).1 2 (.username "a") =
        (setUsername (handleClose stConflict 1).1 2 "a",
         ((getLoggedInUsers (handleClose stConflict 1).1).map
            fun client => (client.id, ServerMsg.newUser "a")) ++
           [(2, ServerMsg.loggedIn hist gs "a" contacts)]) := by
  constructor
  · exact claim_C1.1 stConflict 2 ⟨2, none, true⟩ ⟨1, some "a", true⟩ "a"
      rfl (by decide) rfl
  · exact claim_C1.2 stConflict 1 2 ⟨2, none, true⟩ "a" (by decide) (by decide) rfl

/-- C2 amended: closing any connection triggers the user-disconnect
broadcast unconditionally (the handler never checks whether the user has
other live connections — under the uniqueness check a username is bound
by at most one live connection, so a bound close is always the last);
the event reaches exactly the currently logged-in connections — those
with a bound truthy username and an OPEN transport — once each, and every
emitted event is the user-disconnect of the closing connection; clients
without a bound identity receive nothing. -/
theorem claim_C2 :
    ∀ (s : ServerState) (cid : Nat) (conn e : Conn),
      s.clients.find? (fun c => c.id == cid) = some conn →
      (s.clients.map (fun c => c.id)).Nodup →
      e ∈ s.clients → e.id ≠ cid →
      ((handleClose s cid).2.countP (fun p => p.1 == e.id) =
        if truthyStr e.username && e.isOpen then 1 else 0) ∧
      ∀ p ∈ (handleClose s cid).2, p.2 = ServerMsg.userDisconnect conn.username := by
  intro s cid conn e hfind hn hmem hne
  unfold handleClose
  rw [hfind]
  constructor
  · show (((getLoggedInUsers _).map fun client =>
        (client.id, ServerMsg.userDisconnect conn.username)).countP
          (fun p => p.1 == e.id)) = _
    rw [List.countP_map]
    unfold getLoggedInUsers
    rw [List.filter_filter]
    have hkey := countP_filter_id
      (fun c => (truthyStr c.username && c.isOpen) && !(c.id == cid)) hn hmem
    have hne2 : (!(e.id == cid)) = true := by simpa using hne
    simp only [hne2, Bool.and_true] at hkey
    exact hkey
  · intro p hp
    simp only [List.mem_map] at hp
    obtain ⟨c, hc, heq⟩ := hp
    rw [← heq]

/-- C2 witness: with a and b logged in on connections 1 and 2, closing
connection 1 delivers exactly one event to connection 2, and every
emitted event is the user-disconnect of a. -/
theorem claim_C2_witness :
    ((handleClose stPair 1).2.countP (fun p => p.1 == 2) = 1) ∧
    ∀ p ∈ (handleClose stPair 1).2, p.2 = ServerMsg.userDisconnect (some "a") := by
  have h := claim_C2 stPair 1 ⟨1, some "a", true⟩ ⟨2, some "b", true⟩
    rfl (by decide) (by decide) (by decide)
  exact ⟨by simpa using h.1, h.2⟩

/-- C3 amended: for a send-group-message to an existing group, each
connected client receives receive-message exactly once iff it is logged
in and its username is among the usernames resolved from the group's
member ids (after the sender's get-or-create) — so the sender receives
the message only when it is itself a member of the group, and
non-members receive nothing. -/
theorem claim_C3 :
    ∀ (s : ServerState) (cid : Nat) (conn e : Conn) (gid : Nat) (text : String)
      (g : GroupRec),
      s.clients.find? (fun c => c.id == cid) = some conn →
      s.groups.find? (fun g2 => g2._id == gid) = some g →
      (s.clients.map (fun c => c.id)).Nodup →
      e ∈ s.clients →
      (handleMessage s cid (.sendGroupMessage gid text)).2.countP
          (fun p => p.1 == e.id) =
        if (memberUsernames (getUserIdOrCreate s conn.username).2 g.members).contains
              e.username && (truthyStr e.username && e.isOpen)
        then 1 else 0 := by
  intro s cid conn e gid text g hfind hg hn hmem
  unfold handleMessage
  rw [hfind]
  show ((handleSendGroupMessage s conn gid text).2.countP fun p => p.1 == e.id) = _
  unfold handleSendGroupMessage
  have hclients : ((insertMessage (getUserIdOrCreate s conn.username).2
      (getUserIdOrCreate s conn.username).1 none (some gid) text).2).clients
      = s.clients := (goc_frame s conn.username).1
  have hgroups : ((insertMessage (getUserIdOrCreate s conn.username).2
      (getUserIdOrCreate s conn.username).1 none (some gid) text).2).groups
      = s.groups := (goc_frame s conn.username).2.1
  have hn2 : (((insertMessage (getUserIdOrCreate s conn.username).2
      (getUserIdOrCreate s conn.username).1 none (some gid) text).2).clients.map
        (fun c => c.id)).Nodup := by rw [hclients]; exact hn
  have hmem2 : e ∈ ((insertMessage (getUserIdOrCreate s conn.username).2
      (getUserIdOrCreate s conn.username).1 none (some gid) text).2).clients := by
    rw [hclients]; exact hmem
  dsimp only
  rw [hgroups, hg]
  dsimp only
  exact sendToCertainUsers_count _ _ hn2 hmem2

/-- C3 witness: a (connection 1, not a member) sends to group 20 whose
member list resolves to b; connection 2 (user b) receives the event
exactly once. -/
theorem claim_C3_witness :
    (handleMessage stGroupMsg 1 (.sendGroupMessage 20 "hi")).2.countP
        (fun p => p.1 == 2) = 1 := by
  have h := claim_C3 stGroupMsg 1 ⟨1, some "a", true⟩ ⟨2, some "b", true⟩ 20 "hi"
    ⟨20, "G", [11]⟩ rfl rfl (by decide) (by decide)
  exact h.trans (by decide)

/-- C4 amended: a delete-message request whose requester's username is
not among the message's affected usernames (sender, receiving user if
any, receiving group members if any) is silently dropped — the store is
unchanged and nothing is sent, not even an authorization error (and, per
the counterexample, a requester that is the receiving user or a group
member succeeds even without being the sender). -/
theorem claim_C4 :
    ∀ (s : ServerState) (cid : Nat) (conn : Conn) (mid : Nat) (m : MessageRec)
      (affected : List (Option String)),
      s.clients.find? (fun c => c.id == cid) = some conn →
      s.messages.find? (fun x => x._id == mid) = some m →
      collectAffected s m = some affected →
      affected.contains conn.username = false →
      handleMessage s cid (.deleteMessage mid) = (s, []) := by
  intro s cid conn mid m affected hfind hm hca hnc
  unfold handleMessage
  rw [hfind]
  show handleDeleteMessage s conn mid = (s, [])
  unfold handleDeleteMessage
  rw [hm]
  dsimp only
  rw [hca]
  dsimp only
  unfold deleteMessageFinish
  rw [hnc]
  simp

/-- C4 witness: user c, unrelated to message 100 from a to b, issues
delete-message: the request is dropped with no state change and no
events. -/
theorem claim_C4_witness :
    handleMessage stDelete 3 (.deleteMessage 100) = (stDelete, []) :=
  claim_C4 stDelete 3 ⟨3, some "c", true⟩ 100 ⟨100, 10, some 11, none, "hi", 0⟩
    [some "a", some "b"] rfl rfl rfl rfl

/-- C7 amended: a create-group request is never rejected for unknown
member names: member entries are resolved with get-or-create, so after
the request every member name has a user row (created on the fly when
missing), and exactly one group row with the requested name is appended
to the store. -/
theorem claim_C7 :
    ∀ (s : ServerState) (cid : Nat) (conn : Conn) (gname : String)
      (memberNames : List String),
      s.clients.find? (fun c => c.id == cid) = some conn →
      ∃ g, (handleMessage s cid (.createGroup gname memberNames)).1.groups =
              s.groups ++ [g] ∧
        g.name = gname ∧
        ∀ mn ∈ memberNames, ∃ u,
          u ∈ (handleMessage s cid (.createGroup gname memberNames)).1.users ∧
          u.username = some mn := by
  intro s cid conn gname memberNames hfind
  unfold handleMessage
  rw [hfind]
  show ∃ g, (handleCreateGroup s conn gname memberNames).1.groups = _ ∧ _ ∧ _
  unfold handleCreateGroup
  dsimp only [insertGroup]
  refine ⟨⟨(resolveMembers s memberNames).2.nextId, gname,
    (resolveMembers s memberNames).1⟩, ?_, rfl, ?_⟩
  · rw [(resolveMembers_frame memberNames s).2.1]
  · intro mn hmn
    obtain ⟨u, hu, hun⟩ := resolveMembers_resolves memberNames s mn hmn
    exact ⟨u, hu, hun⟩

/-- C7 witness: create-group g with the unknown member ghost succeeds,
appending one group row named g, and afterwards ghost has a user row. -/
theorem claim_C7_witness :
    ∃ g, (handleMessage stGhost 1 (.createGroup "g" ["ghost"])).1.groups =
            stGhost.groups ++ [g] ∧
      g.name = "g" ∧
      ∀ mn ∈ ["ghost"], ∃ u,
        u ∈ (handleMessage stGhost 1 (.createGroup "g" ["ghost"])).1.users ∧
        u.username = some mn :=
  claim_C7 stGhost 1 ⟨1, some "a", true⟩ "g" ["ghost"] rfl

/-- updateFirstGroup touches only the groups store. -/
theorem updateFirstGroup_clients (s : ServerState) (members : List Nat)
    (name : String) : ((updateFirstGroup s members name).2).clients = s.clients := by
  unfold updateFirstGroup
  split <;> rfl

/-- An event produced by sendToCertainUsers against a state with the same
registry is addressed to a connection logged in in the original state. -/
theorem sendToCertainUsers_loggedIn_congr {s2 s : ServerState}
    (h : s2.clients = s.clients) {users : List (Option String)} {msg : ServerMsg}
    {t : Nat} {e : ServerMsg} (hm : (t, e) ∈ sendToCertainUsers s2 users msg) :
    isLoggedInId s t = true := by
  have h2 := sendToCertainUsers_loggedIn hm
  rwa [isLoggedInId_congr h] at h2

/-- C10: every event a message handler emits is addressed either to the
requesting connection itself (a direct reply) or to a connection that is
logged in — bound truthy username and OPEN transport — at the time of the
request; and every event the close handler emits is addressed to a
logged-in connection.  Hence a connection that never successfully claimed
an identity receives only direct replies to its own requests. -/
theorem claim_C10 :
    (∀ (s : ServerState) (cid : Nat) (msg : ClientMsg) (t : Nat) (e : ServerMsg),
      (t, e) ∈ (handleMessage s cid msg).2 → t = cid ∨ isLoggedInId s t = true) ∧
    (∀ (s : ServerState) (cid : Nat) (t : Nat) (e : ServerMsg),
      (t, e) ∈ (handleClose s cid).2 → isLoggedInId s t = true) := by
  constructor
  · intro s cid msg t e hmem
    unfold handleMessage at hmem
    cases hfind : s.clients.find? (fun c => c.id == cid) with
    | none => rw [hfind] at hmem; simp at hmem
    | some conn =>
        rw [hfind] at hmem
        have hcid := find_clients_id hfind
        cases msg with
        | username uname =>
            have hmem2 : (t, e) ∈ (handleUsername s conn uname).2 := hmem
            unfold handleUsername at hmem2
            by_cases hcond : (isUsernameUnique s uname && isValidUsername uname) = true
            · rw [if_pos hcond] at hmem2
              dsimp only at hmem2
              rw [List.mem_append] at hmem2
              rcases hmem2 with hmem2 | hmem2
              · right
                simp only [List.mem_map] at hmem2
                obtain ⟨c, hc, heq⟩ := hmem2
                have hct : c.id = t := congrArg Prod.fst heq
                simp only [isLoggedInId, List.any_eq_true]
                exact ⟨c, hc, by simp [hct]⟩
              · left
                simp only [List.mem_singleton] at hmem2
                have ht : t = conn.id := congrArg Prod.fst hmem2
                exact ht.trans hcid
            · rw [if_neg hcond] at hmem2
              simp only [List.mem_singleton] at hmem2
              left
              have ht : t = conn.id := congrArg Prod.fst hmem2
              exact ht.trans hcid
        | sendMessage receipient text =>
            right
            have hmem2 : (t, e) ∈ (handleSendMessage s conn receipient text).2 := hmem
            unfold handleSendMessage at hmem2
            dsimp only at hmem2
            exact sendToCertainUsers_loggedIn_congr
              (((goc_frame (getUserIdOrCreate s conn.username).2 (some receipient)).1).trans
                (goc_frame s conn.username).1) hmem2
        | sendGroupMessage gid text =>
            right
            have hmem2 : (t, e) ∈ (handleSendGroupMessage s conn gid text).2 := hmem
            unfold handleSendGroupMessage at hmem2
            dsimp only at hmem2
            cases hg : ((insertMessage (getUserIdOrCreate s conn.username).2
                (getUserIdOrCreate s conn.username).1 none (some gid) text).2).groups.find?
                (fun g => g._id == gid) with
            | none => rw [hg] at hmem2; simp at hmem2
            | some g =>
                rw [hg] at hmem2
                dsimp only at hmem2
                exact sendToCertainUsers_loggedIn_congr ((goc_frame s conn.username).1) hmem2
        | editMessage mid newMessage => simp at hmem
        | editTags mid newTags => simp at hmem
        | deleteMessage mid =>
            right
            have hmem2 : (t, e) ∈ (handleDeleteMessage s conn mid).2 := hmem
            unfold handleDeleteMessage at hmem2
            cases hm : s.messages.find? (fun x => x._id == mid) with
            | none => rw [hm] at hmem2; simp at hmem2
            | some m =>
                rw [hm] at hmem2
                dsimp only at hmem2
                cases hca : collectAffected s m with
                | none => rw [hca] at hmem2; simp at hmem2
                | some affected =>
                    rw [hca] at hmem2
                    dsimp only at hmem2
                    unfold deleteMessageFinish at hmem2
                    by_cases hc : affected.contains conn.username = true
                    · simp only [hc, Bool.not_true, Bool.false_eq_true,
                        if_false] at hmem2
                      exact sendToCertainUsers_loggedIn_congr rfl hmem2
                    · have hcf : affected.contains conn.username = false := by
                        simpa using hc
                      simp only [hcf, Bool.not_false, if_true] at hmem2
                      simp at hmem2
        | createGroup gname members =>
            right
            have hmem2 : (t, e) ∈ (handleCreateGroup s conn gname members).2 := hmem
            unfold handleCreateGroup at hmem2
            dsimp only at hmem2
            exact sendToCertainUsers_loggedIn_congr (resolveMembers_frame members s).1 hmem2
        | editGroup gid gname oldM newM =>
            right
            have hmem2 : (t, e) ∈ (handleEditGroup s conn gid gname oldM newM).2 := hmem
            unfold handleEditGroup at hmem2
            dsimp only at hmem2
            rw [List.mem_append] at hmem2
            have hX : ((updateFirstGroup (resolveMembers s newM).2
                (resolveMembers s newM).1 gname).2).clients = s.clients :=
              (updateFirstGroup_clients _ _ _).trans (resolveMembers_frame newM s).1
            rcases hmem2 with hmem2 | hmem2
            · exact sendToCertainUsers_loggedIn_congr hX hmem2
            · exact sendToCertainUsers_loggedIn_congr hX hmem2
        | deleteGroup gid =>
            right
            have hmem2 : (t, e) ∈ (handleDeleteGroup s conn gid).2 := hmem
            unfold handleDeleteGroup at hmem2
            cases hg : s.groups.find? (fun g => g._id == gid) with
            | none => rw [hg] at hmem2; simp at hmem2
            | some g =>
                rw [hg] at hmem2
                dsimp only at hmem2
                exact sendToCertainUsers_loggedIn_congr rfl hmem2
  · intro s cid t e hmem
    unfold handleClose at hmem
    cases hfind : s.clients.find? (fun c => c.id == cid) with
    | none => rw [hfind] at hmem; simp at hmem
    | some conn =>
        rw [hfind] at hmem
        dsimp only at hmem
        simp only [List.mem_map] at hmem
        obtain ⟨c, hc, heq⟩ := hmem
        have hct : c.id = t := congrArg Prod.fst heq
        simp only [isLoggedInId, List.any_eq_true]
        refine ⟨c, ?_, by simp [hct]⟩
        simp only [getLoggedInUsers, List.mem_filter] at hc ⊢
        exact ⟨hc.1.1, hc.2⟩

/-- C10 witness: the user-disconnect event sent to connection 2 when
connection 1 closes in the two-user state is addressed to a logged-in
connection. -/
theorem claim_C10_witness :
    ((2, ServerMsg.userDisconnect (some "a")) ∈ (handleClose stPair 1).2) ∧
    isLoggedInId stPair 2 = true :=
  ⟨by decide, claim_C10.2 stPair 1 2 (ServerMsg.userDisconnect (some "a")) (by decide)⟩
